import Mathlib

/-!
Shallow embedding of `m4i/ecs-auto-draining` (`src/main.go`).

The program is a single Lambda handler.  All interaction with the cloud
control plane (EC2, ECS, AutoScaling) is factored into a `World` record
that fixes, for one invocation, the result of each external call; the
embedded operations additionally log a trace of the calls they make, so
that claims about which calls occur can be stated and proved.

The paginated list operations (`ListContainerInstancesPagesWithContext`,
`ListTasksPagesWithContext`) are modelled as one logical call returning
the list of pages the callback would receive; the Go callback that drops
empty pages (`if len(...) > 0`) is reproduced by filtering empty pages.

`log.Println` / `logEvent` and the session construction perform no cloud
calls and cannot fail on the event type in question, so they are not
modelled.  The JSON round trip of `evt.Detail` through
`CloudWatchEventDetail` is modelled structurally: the detail is the
struct with exactly the six fields the Go type declares.
-/

/-- The event detail struct, mirroring Go `CloudWatchEventDetail`. -/
structure CloudWatchEventDetail where
  AutoScalingGroupName : String
  EC2InstanceId : String
  LifecycleActionToken : String
  LifecycleHookName : String
  LifecycleTransition : String
  Wait : Bool
  deriving DecidableEq, Repr

/-- The CloudWatch event envelope (`events.CloudWatchEvent`), with the
detail held structurally. -/
structure CloudWatchEvent where
  Version : String
  ID : String
  DetailType : String
  Source : String
  AccountID : String
  Time : String
  Region : String
  Resources : List String
  Detail : CloudWatchEventDetail
  deriving DecidableEq, Repr

/-- One element of `DescribeContainerInstances` output. -/
structure ContainerInstance where
  containerInstanceArn : String
  ec2InstanceId : String
  status : String
  deriving DecidableEq, Repr

/-- One element of `DescribeTasks` output. -/
structure EcsTask where
  taskArn : String
  lastStatus : String
  deriving DecidableEq, Repr

def DetailTypeTerminateLifecycle : String := "EC2 Instance-terminate Lifecycle Action"

def LifecycleTransitionTerminating : String := "autoscaling:EC2_INSTANCE_TERMINATING"

def ContainerInstanceStatusDraining : String := "DRAINING"

/-- Errors surfaced by the handler: the two validation errors, the
not-found errors, the base64 decode error, and pass-through errors from
external calls (carried as a message string). -/
inductive HandlerError where
  | detailTypeMismatch (got : String)
  | lifecycleTransitionMismatch (got : String)
  | userDataMissing (instanceID : String)
  | base64DecodeError
  | ecsClusterNotFound
  | containerInstanceNotFound (clusterName instanceID : String)
  | awsError (msg : String)
  deriving DecidableEq, Repr

/-- The cloud-API calls the handler can make, with the arguments the Go
code passes.  A paginated list operation appears as one call. -/
inductive Call where
  | describeInstanceAttribute (instanceID : String)
  | listContainerInstances (clusterName : String)
  | describeContainerInstances (clusterName : String) (arns : List String)
  | updateContainerInstancesState (clusterName : String) (arns : List String) (status : String)
  | listTasks (clusterName containerInstanceArn desiredStatus : String)
  | describeTasks (clusterName : String) (taskArns : List String)
  | recordLifecycleActionHeartbeat (asgName token hookName : String)
  | completeLifecycleAction (asgName result token hookName : String)
  deriving DecidableEq, Repr

/-- The environment of one invocation: the result each external call
would return.  `Except String` results model pass-through AWS errors. -/
structure World where
  /-- `DescribeInstanceAttribute(userData)` → `output.UserData.Value`
  (`none` models a nil value). -/
  userDataValue : Except String (Option String)
  /-- pages of `ListContainerInstancesPages` (ARNs per page). -/
  containerInstancePages : Except String (List (List String))
  /-- `DescribeContainerInstances` on a batch of ARNs. -/
  describeContainerInstances : List String → Except String (List ContainerInstance)
  /-- `UpdateContainerInstancesState`. -/
  updateState : Except String Unit
  /-- first page of `ListTasks` with desired status RUNNING. -/
  listTasksRunning : Except String (List String)
  /-- pages of `ListTasksPages` with desired status STOPPED. -/
  listTasksStoppedPages : Except String (List (List String))
  /-- `DescribeTasks` on a batch of task ARNs. -/
  describeTasks : List String → Except String (List EcsTask)
  /-- `RecordLifecycleActionHeartbeat`. -/
  heartbeatResult : Except String Unit
  /-- `CompleteLifecycleAction`. -/
  completeResult : Except String Unit

/-! ### base64 (Go `base64.StdEncoding.DecodeString`) -/

/-- Index of a character in the standard base64 alphabet. -/
def b64Index (c : Char) : Option Nat :=
  if 'A' ≤ c ∧ c ≤ 'Z' then some (c.toNat - 65)
  else if 'a' ≤ c ∧ c ≤ 'z' then some (c.toNat - 97 + 26)
  else if '0' ≤ c ∧ c ≤ '9' then some (c.toNat - 48 + 52)
  else if c = '+' then some 62
  else if c = '/' then some 63
  else none

/-- Decode base64 text, four characters at a time; `=` padding is only
accepted at the end of the input, and (as in Go's non-strict standard
encoding) trailing bits beyond the declared length are ignored. -/
def base64DecodeBlocks : List Char → Option (List Nat)
  | [] => some []
  | c1 :: c2 :: c3 :: c4 :: rest =>
    match b64Index c1, b64Index c2 with
    | some i1, some i2 =>
      if c3 = '=' then
        if c4 = '=' ∧ rest = [] then some [i1 * 4 + i2 / 16] else none
      else
        match b64Index c3 with
        | some i3 =>
          if c4 = '=' then
            if rest = [] then some [i1 * 4 + i2 / 16, (i2 % 16) * 16 + i3 / 4] else none
          else
            match b64Index c4 with
            | some i4 =>
              match base64DecodeBlocks rest with
              | some tail =>
                some ((i1 * 4 + i2 / 16) :: ((i2 % 16) * 16 + i3 / 4) :: ((i3 % 4) * 64 + i4) :: tail)
              | none => none
            | none => none
        | none => none
    | _, _ => none
  | _ => none

/-- `base64.StdEncoding.DecodeString`: newline characters are skipped,
then the input is decoded in blocks of four.  The resulting bytes are
returned as characters (Go converts the byte slice to a string). -/
def base64Decode (s : List Char) : Option (List Char) :=
  (base64DecodeBlocks (s.filter (fun c => c != '\n' && c != '\r'))).map
    (fun bytes => bytes.map Char.ofNat)

/-! ### the regular expression `\bECS_CLUSTER=([-\w]+)` -/

/-- Go regexp `\w` (ASCII): `[0-9A-Za-z_]`. -/
def isWordChar (c : Char) : Bool := c.isAlphanum || c = '_'

/-- A character matched by the capture class `[-\w]`. -/
def capChar (c : Char) : Bool := c = '-' || isWordChar c

/-- The literal part of the pattern. -/
def litChars : List Char := "ECS_CLUSTER=".data

/-- Strip a literal from the front of a string, returning the rest. -/
def stripLit : List Char → List Char → Option (List Char)
  | [], s => some s
  | _ :: _, [] => none
  | l :: ls, c :: cs => if c = l then stripLit ls cs else none

/-- Try to match `ECS_CLUSTER=([-\w]+)` at the current position (the
word-boundary context is checked by the caller); returns the capture. -/
def matchHere (s : List Char) : Option (List Char) :=
  match stripLit litChars s with
  | none => none
  | some r =>
    let cap := r.takeWhile capChar
    if cap.isEmpty then none else some cap

/-- Scan for the leftmost match.  `pw` records whether the previous
character is a word character (so `\b` holds exactly when `pw = false`,
since the pattern starts with the word character `E`). -/
def findFrom : Bool → List Char → Option (List Char)
  | _, [] => none
  | pw, c :: cs =>
    if pw then findFrom (isWordChar c) cs
    else
      match matchHere (c :: cs) with
      | some cap => some cap
      | none => findFrom (isWordChar c) cs

/-- `ecsClusterRegexp.FindStringSubmatch`, specialised to returning the
first capture group of the leftmost match. -/
def ecsClusterFind (s : List Char) : Option (List Char) := findFrom false s

/-! ### the operations of `main.go` -/

/-- `getUserData`: describe the instance attribute, require a present
value, base64-decode it. -/
def getUserData (w : World) (instanceID : String) :
    Except HandlerError (List Char) × List Call :=
  let calls := [Call.describeInstanceAttribute instanceID]
  match w.userDataValue with
  | .error e => (.error (.awsError e), calls)
  | .ok none => (.error (.userDataMissing instanceID), calls)
  | .ok (some v) =>
    match base64Decode v.data with
    | none => (.error .base64DecodeError, calls)
    | some userData => (.ok userData, calls)

/-- `getECSClusterName`: extract the first `ECS_CLUSTER=` capture from
the decoded user data. -/
def getECSClusterName (w : World) (instanceID : String) :
    Except HandlerError String × List Call :=
  match getUserData w instanceID with
  | (.error e, calls) => (.error e, calls)
  | (.ok userData, calls) =>
    match ecsClusterFind userData with
    | none => (.error .ecsClusterNotFound, calls)
    | some cap => (.ok (String.mk cap), calls)

/-- The page loop of `getContainerInstance`: describe each page of ARNs
in order and return the first container instance whose EC2 instance id
matches. -/
def ciLoop (w : World) (clusterName instanceID : String) :
    List (List String) → Except HandlerError ContainerInstance × List Call
  | [] => (.error (.containerInstanceNotFound clusterName instanceID), [])
  | arns :: rest =>
    match w.describeContainerInstances arns with
    | .error e => (.error (.awsError e), [.describeContainerInstances clusterName arns])
    | .ok cis =>
      match cis.find? (fun ci => ci.ec2InstanceId == instanceID) with
      | some ci => (.ok ci, [.describeContainerInstances clusterName arns])
      | none =>
        let r := ciLoop w clusterName instanceID rest
        (r.1, .describeContainerInstances clusterName arns :: r.2)

/-- `getContainerInstance`: list the cluster's container instances
(dropping empty pages, as the Go callback does), then scan the pages. -/
def getContainerInstance (w : World) (clusterName instanceID : String) :
    Except HandlerError ContainerInstance × List Call :=
  match w.containerInstancePages with
  | .error e => (.error (.awsError e), [.listContainerInstances clusterName])
  | .ok pages =>
    let r := ciLoop w clusterName instanceID (pages.filter (fun p => !p.isEmpty))
    (r.1, .listContainerInstances clusterName :: r.2)

/-- `setStateDraining`. -/
def setStateDraining (w : World) (clusterName containerInstanceArn : String) :
    Except HandlerError Unit × List Call :=
  let calls := [Call.updateContainerInstancesState clusterName [containerInstanceArn]
    ContainerInstanceStatusDraining]
  match w.updateState with
  | .error e => (.error (.awsError e), calls)
  | .ok _ => (.ok (), calls)

/-- The page loop of `taskExists`: describe each page of STOPPED-desired
task ARNs and stop at the first page containing a task whose last known
status is RUNNING. -/
def taskLoop (w : World) (clusterName : String) :
    List (List String) → Except HandlerError Bool × List Call
  | [] => (.ok false, [])
  | arns :: rest =>
    match w.describeTasks arns with
    | .error e => (.error (.awsError e), [.describeTasks clusterName arns])
    | .ok tasks =>
      if tasks.any (fun t => t.lastStatus == "RUNNING") then
        (.ok true, [.describeTasks clusterName arns])
      else
        let r := taskLoop w clusterName rest
        (r.1, .describeTasks clusterName arns :: r.2)

/-- `taskExists`: true if the RUNNING-desired list is non-empty, else
scan pages of STOPPED-desired tasks (empty pages dropped by the Go
callback) for one whose described status is still RUNNING. -/
def taskExists (w : World) (clusterName containerInstanceArn : String) :
    Except HandlerError Bool × List Call :=
  match w.listTasksRunning with
  | .error e => (.error (.awsError e), [.listTasks clusterName containerInstanceArn "RUNNING"])
  | .ok runArns =>
    if runArns.length > 0 then
      (.ok true, [.listTasks clusterName containerInstanceArn "RUNNING"])
    else
      match w.listTasksStoppedPages with
      | .error e =>
        (.error (.awsError e),
         [.listTasks clusterName containerInstanceArn "RUNNING",
          .listTasks clusterName containerInstanceArn "STOPPED"])
      | .ok pages =>
        let r := taskLoop w clusterName (pages.filter (fun p => !p.isEmpty))
        (r.1,
         .listTasks clusterName containerInstanceArn "RUNNING" ::
           .listTasks clusterName containerInstanceArn "STOPPED" :: r.2)

/-- `heartbeat`. -/
def heartbeat (w : World) (detail : CloudWatchEventDetail) :
    Except HandlerError Unit × List Call :=
  let calls := [Call.recordLifecycleActionHeartbeat detail.AutoScalingGroupName
    detail.LifecycleActionToken detail.LifecycleHookName]
  match w.heartbeatResult with
  | .error e => (.error (.awsError e), calls)
  | .ok _ => (.ok (), calls)

/-- `complete`: complete the lifecycle action with result CONTINUE. -/
def complete (w : World) (detail : CloudWatchEventDetail) :
    Except HandlerError Unit × List Call :=
  let calls := [Call.completeLifecycleAction detail.AutoScalingGroupName "CONTINUE"
    detail.LifecycleActionToken detail.LifecycleHookName]
  match w.completeResult with
  | .error e => (.error (.awsError e), calls)
  | .ok _ => (.ok (), calls)

/-- The tail of `handler` from the `taskExists` call on: heartbeat and
set `Wait := true` if tasks remain, otherwise complete the lifecycle
action and set `Wait := false`. -/
def signalPhase (w : World) (evt : CloudWatchEvent)
    (clusterName containerInstanceArn : String) :
    (Option CloudWatchEvent × Option HandlerError) × List Call :=
  match taskExists w clusterName containerInstanceArn with
  | (.error e, cs) => ((none, some e), cs)
  | (.ok found, cs) =>
    if found then
      match heartbeat w evt.Detail with
      | (.error e, cs') => ((none, some e), cs ++ cs')
      | (.ok _, cs') =>
        ((some { evt with Detail := { evt.Detail with Wait := true } }, none), cs ++ cs')
    else
      match complete w evt.Detail with
      | (.error e, cs') => ((none, some e), cs ++ cs')
      | (.ok _, cs') =>
        ((some { evt with Detail := { evt.Detail with Wait := false } }, none), cs ++ cs')

/-- The tail of `handler` from the draining step on: transition the
container instance to DRAINING unless it already is, then signal. -/
def drainPhase (w : World) (evt : CloudWatchEvent) (clusterName : String)
    (containerInstance : ContainerInstance) :
    (Option CloudWatchEvent × Option HandlerError) × List Call :=
  match (if containerInstance.status ≠ ContainerInstanceStatusDraining then
           setStateDraining w clusterName containerInstance.containerInstanceArn
         else (.ok (), [])) with
  | (.error e, cs) => ((none, some e), cs)
  | (.ok _, cs) =>
    let r := signalPhase w evt clusterName containerInstance.containerInstanceArn
    (r.1, cs ++ r.2)

/-- `handler`, returning the Go pair `(*events.CloudWatchEvent, error)`
as `Option CloudWatchEvent × Option HandlerError`, together with the
trace of cloud calls made. -/
def handler (w : World) (evt : CloudWatchEvent) :
    (Option CloudWatchEvent × Option HandlerError) × List Call :=
  if evt.DetailType ≠ DetailTypeTerminateLifecycle then
    ((none, some (.detailTypeMismatch evt.DetailType)), [])
  else if evt.Detail.LifecycleTransition ≠ LifecycleTransitionTerminating then
    ((none, some (.lifecycleTransitionMismatch evt.Detail.LifecycleTransition)), [])
  else
    match getECSClusterName w evt.Detail.EC2InstanceId with
    | (.error e, cs1) => ((none, some e), cs1)
    | (.ok clusterName, cs1) =>
      match getContainerInstance w clusterName evt.Detail.EC2InstanceId with
      | (.error e, cs2) => ((none, some e), cs1 ++ cs2)
      | (.ok containerInstance, cs2) =>
        let r := drainPhase w evt clusterName containerInstance
        (r.1, (cs1 ++ cs2) ++ r.2)

/-! ### derived predicates used by the claims -/

/-- Classification of errors as validation errors (spec section 7). -/
def isValidationError : HandlerError → Bool
  | .detailTypeMismatch _ => true
  | .lifecycleTransitionMismatch _ => true
  | _ => false

def isHeartbeatCall : Call → Bool
  | .recordLifecycleActionHeartbeat _ _ _ => true
  | _ => false

def isCompleteCall : Call → Bool
  | .completeLifecycleAction _ _ _ _ => true
  | _ => false

def isUpdateStateCall : Call → Bool
  | .updateContainerInstancesState _ _ _ => true
  | _ => false

/-- Calls addressed to the ECS control plane. -/
def isECSCall : Call → Bool
  | .listContainerInstances _ => true
  | .describeContainerInstances _ _ => true
  | .updateContainerInstancesState _ _ _ => true
  | .listTasks _ _ _ => true
  | .describeTasks _ _ => true
  | _ => false

/-- Whether one STOPPED page still reports a RUNNING described task. -/
def pageHasRunning (w : World) (arns : List String) : Bool :=
  match w.describeTasks arns with
  | .ok tasks => tasks.any (fun t => t.lastStatus == "RUNNING")
  | .error _ => false

/-- The spec's condition "any task reports RUNNING (via either the
running-query path or the stopped-query-then-recheck path)", read off
the world. -/
def tasksRemain (w : World) : Bool :=
  (match w.listTasksRunning with
   | .ok runArns => !runArns.isEmpty
   | .error _ => false) ||
  (match w.listTasksStoppedPages with
   | .ok pages => (pages.filter (fun p => !p.isEmpty)).any (pageHasRunning w)
   | .error _ => false)

/-- The head of `post` (if any) is not a capture character: greedy
maximality of the capture. -/
def headNotCap : List Char → Prop
  | [] => True
  | c :: _ => capChar c = false

/-- Declarative reading of a match of `\bECS_CLUSTER=([-\w]+)` at
position `i` of `s` with capture `cap`: the string splits as
`pre ++ "ECS_CLUSTER=" ++ cap ++ post`, the character before the literal
(if any) is not a word character (the `\b`), the capture is a non-empty
run of `[-\w]` characters, and it is maximal. -/
def matchesAt (s : List Char) (i : Nat) (cap : List Char) : Prop :=
  ∃ pre post, s = pre ++ litChars ++ cap ++ post ∧ pre.length = i ∧
    (∀ c, pre.getLast? = some c → isWordChar c = false) ∧
    cap ≠ [] ∧ (∀ c ∈ cap, capChar c = true) ∧ headNotCap post

/-- Whether the last character of the scanned prefix is a word
character (the context bit threaded through `findFrom`). -/
def lastIsWord (pre : List Char) : Bool :=
  match pre.getLast? with
  | some c => isWordChar c
  | none => false

/-! ### call-trace lemmas -/

theorem getUserData_calls (w : World) (iid : String) :
    (getUserData w iid).2 = [Call.describeInstanceAttribute iid] := by
  unfold getUserData
  rcases w.userDataValue with e | v
  · rfl
  · rcases v with _ | v
    · rfl
    · dsimp only
      rcases base64Decode v.data with _ | ud <;> rfl

theorem getECSClusterName_calls (w : World) (iid : String) :
    (getECSClusterName w iid).2 = [Call.describeInstanceAttribute iid] := by
  unfold getECSClusterName
  rcases h : getUserData w iid with ⟨r, cs⟩
  have hcs : cs = [Call.describeInstanceAttribute iid] := by
    have := getUserData_calls w iid
    rw [h] at this
    exact this
  rcases r with e | ud
  · simpa using hcs
  · dsimp only
    rcases ecsClusterFind ud with _ | cap <;> simpa using hcs

theorem setStateDraining_calls (w : World) (cl arn : String) :
    (setStateDraining w cl arn).2 =
      [Call.updateContainerInstancesState cl [arn] ContainerInstanceStatusDraining] := by
  unfold setStateDraining
  rcases w.updateState with e | u <;> rfl

theorem heartbeat_calls (w : World) (d : CloudWatchEventDetail) :
    (heartbeat w d).2 = [Call.recordLifecycleActionHeartbeat d.AutoScalingGroupName
      d.LifecycleActionToken d.LifecycleHookName] := by
  unfold heartbeat
  rcases w.heartbeatResult with e | u <;> rfl

theorem complete_calls (w : World) (d : CloudWatchEventDetail) :
    (complete w d).2 = [Call.completeLifecycleAction d.AutoScalingGroupName "CONTINUE"
      d.LifecycleActionToken d.LifecycleHookName] := by
  unfold complete
  rcases w.completeResult with e | u <;> rfl

theorem ciLoop_calls (w : World) (cl iid : String) :
    ∀ L, ∀ c ∈ (ciLoop w cl iid L).2, ∃ a, c = Call.describeContainerInstances cl a := by
  intro L
  induction L with
  | nil => intro c hc; simp [ciLoop] at hc
  | cons arns rest ih =>
    intro c hc
    unfold ciLoop at hc
    rcases h : w.describeContainerInstances arns with e | cis <;> rw [h] at hc
    · simp only [List.mem_singleton] at hc
      exact ⟨arns, hc⟩
    · dsimp only at hc
      rcases hf : cis.find? (fun ci => ci.ec2InstanceId == iid) with _ | ci <;> rw [hf] at hc
      · dsimp only at hc
        rcases List.mem_cons.mp hc with hc | hc
        · exact ⟨arns, hc⟩
        · exact ih c hc
      · simp only [List.mem_singleton] at hc
        exact ⟨arns, hc⟩

theorem getContainerInstance_calls (w : World) (cl iid : String) :
    ∀ c ∈ (getContainerInstance w cl iid).2,
      c = Call.listContainerInstances cl ∨ ∃ a, c = Call.describeContainerInstances cl a := by
  intro c hc
  unfold getContainerInstance at hc
  rcases h : w.containerInstancePages with e | pages <;> rw [h] at hc
  · simp only [List.mem_singleton] at hc
    exact Or.inl hc
  · dsimp only at hc
    rcases List.mem_cons.mp hc with hc | hc
    · exact Or.inl hc
    · exact Or.inr (ciLoop_calls w cl iid _ c hc)

theorem taskLoop_calls (w : World) (cl : String) :
    ∀ L, ∀ c ∈ (taskLoop w cl L).2, ∃ a, c = Call.describeTasks cl a := by
  intro L
  induction L with
  | nil => intro c hc; simp [taskLoop] at hc
  | cons arns rest ih =>
    intro c hc
    unfold taskLoop at hc
    rcases h : w.describeTasks arns with e | tasks <;> rw [h] at hc
    · simp only [List.mem_singleton] at hc
      exact ⟨arns, hc⟩
    · dsimp only at hc
      by_cases hany : tasks.any (fun t => t.lastStatus == "RUNNING") = true
      · rw [if_pos hany] at hc
        simp only [List.mem_singleton] at hc
        exact ⟨arns, hc⟩
      · rw [if_neg hany] at hc
        dsimp only at hc
        rcases List.mem_cons.mp hc with hc | hc
        · exact ⟨arns, hc⟩
        · exact ih c hc

theorem taskExists_calls (w : World) (cl a : String) :
    ∀ c ∈ (taskExists w cl a).2,
      c = Call.listTasks cl a "RUNNING" ∨ c = Call.listTasks cl a "STOPPED" ∨
        ∃ ts, c = Call.describeTasks cl ts := by
  intro c hc
  unfold taskExists at hc
  rcases h : w.listTasksRunning with e | runArns <;> rw [h] at hc
  · simp only [List.mem_singleton] at hc
    exact Or.inl hc
  · dsimp only at hc
    by_cases hlen : runArns.length > 0
    · rw [if_pos hlen] at hc
      simp only [List.mem_singleton] at hc
      exact Or.inl hc
    · rw [if_neg hlen] at hc
      rcases h2 : w.listTasksStoppedPages with e | pages <;> rw [h2] at hc
      · rcases List.mem_cons.mp hc with hc | hc
        · exact Or.inl hc
        · simp only [List.mem_singleton] at hc
          exact Or.inr (Or.inl hc)
      · dsimp only at hc
        rcases List.mem_cons.mp hc with hc | hc
        · exact Or.inl hc
        · rcases List.mem_cons.mp hc with hc | hc
          · exact Or.inr (Or.inl hc)
          · exact Or.inr (Or.inr (taskLoop_calls w cl _ c hc))

/-! ### taskExists semantics -/

theorem taskLoop_ok_eq (w : World) (cl : String) :
    ∀ L b, (taskLoop w cl L).1 = .ok b → b = L.any (pageHasRunning w) := by
  intro L
  induction L with
  | nil =>
    intro b hb
    simp [taskLoop] at hb
    simp [hb.symm]
  | cons arns rest ih =>
    intro b hb
    unfold taskLoop at hb
    rcases h : w.describeTasks arns with e | tasks <;> rw [h] at hb
    · simp at hb
    · dsimp only at hb
      by_cases hany : tasks.any (fun t => t.lastStatus == "RUNNING") = true
      · rw [if_pos hany] at hb
        simp only [Except.ok.injEq] at hb
        subst hb
        simp [List.any_cons, pageHasRunning, h, hany]
      · rw [if_neg hany] at hb
        dsimp only at hb
        have := ih b hb
        subst this
        simp only [List.any_cons]
        have : pageHasRunning w arns = false := by
          simp only [pageHasRunning, h]
          exact Bool.eq_false_iff.mpr hany
        rw [this]
        simp

theorem taskExists_ok_eq (w : World) (cl a : String) (b : Bool)
    (h : (taskExists w cl a).1 = .ok b) : b = tasksRemain w := by
  unfold taskExists at h
  unfold tasksRemain
  rcases h1 : w.listTasksRunning with e | runArns <;> rw [h1] at h
  · simp at h
  · dsimp only at h
    by_cases hlen : runArns.length > 0
    · rw [if_pos hlen] at h
      simp only [Except.ok.injEq] at h
      subst h
      have : runArns.isEmpty = false := by
        rcases runArns with _ | ⟨x, xs⟩
        · simp at hlen
        · rfl
      simp [this]
    · rw [if_neg hlen] at h
      have hruns : runArns = [] := by
        rcases runArns with _ | ⟨x, xs⟩
        · rfl
        · exact absurd (by simp) hlen
      subst hruns
      rcases h2 : w.listTasksStoppedPages with e | pages <;> rw [h2] at h
      · simp at h
      · dsimp only at h
        have := taskLoop_ok_eq w cl _ b h
        simp [this, List.isEmpty]

theorem taskLoop_spec (w : World) (cl : String) :
    ∀ L, (∀ arns ∈ L, ∃ tasks, w.describeTasks arns = .ok tasks) →
      ∃ b, (taskLoop w cl L).1 = .ok b ∧
        (b = true ↔ ∃ arns ∈ L, ∃ tasks, w.describeTasks arns = .ok tasks ∧
          ∃ t ∈ tasks, t.lastStatus = "RUNNING") := by
  intro L
  induction L with
  | nil =>
    intro _
    exact ⟨false, rfl, by simp⟩
  | cons arns rest ih =>
    intro hdesc
    obtain ⟨tasks, htasks⟩ := hdesc arns (List.mem_cons_self arns rest)
    obtain ⟨b, hb, hiff⟩ := ih (fun a ha => hdesc a (List.mem_cons_of_mem arns ha))
    unfold taskLoop
    rw [htasks]
    dsimp only
    by_cases hany : tasks.any (fun t => t.lastStatus == "RUNNING") = true
    · rw [if_pos hany]
      refine ⟨true, rfl, ?_⟩
      simp only [true_iff]
      refine ⟨arns, List.mem_cons_self arns rest, tasks, htasks, ?_⟩
      obtain ⟨t, ht, hrun⟩ := List.any_eq_true.mp hany
      exact ⟨t, ht, by simpa using hrun⟩
    · rw [if_neg hany]
      refine ⟨b, hb, ?_⟩
      rw [hiff]
      constructor
      · rintro ⟨a, ha, ts, hts, hr⟩
        exact ⟨a, List.mem_cons_of_mem arns ha, ts, hts, hr⟩
      · rintro ⟨a, ha, ts, hts, t, ht, hrun⟩
        rcases List.mem_cons.mp ha with rfl | ha
        · rw [htasks] at hts
          injection hts with hts
          subst hts
          exact absurd (List.any_eq_true.mpr ⟨t, ht, by simpa using hrun⟩) hany
        · exact ⟨a, ha, ts, hts, t, ht, hrun⟩

/-- C2: for every cluster and container instance, `taskExists` returns
true iff the RUNNING-desired list is non-empty or some page of the
STOPPED-desired tasks has a described task whose last known status is
RUNNING, and false otherwise, assuming no external call errors. -/
theorem taskExists_spec (w : World) (cl a : String)
    (runArns : List String) (pages : List (List String))
    (hrun : w.listTasksRunning = .ok runArns)
    (hstop : w.listTasksStoppedPages = .ok pages)
    (hdesc : ∀ arns ∈ pages, arns ≠ [] → ∃ tasks, w.describeTasks arns = .ok tasks) :
    ∃ b, (taskExists w cl a).1 = .ok b ∧
      (b = true ↔ runArns ≠ [] ∨
        ∃ arns ∈ pages, arns ≠ [] ∧ ∃ tasks, w.describeTasks arns = .ok tasks ∧
          ∃ t ∈ tasks, t.lastStatus = "RUNNING") := by
  unfold taskExists
  rw [hrun]
  dsimp only
  by_cases hlen : runArns.length > 0
  · rw [if_pos hlen]
    refine ⟨true, rfl, ?_⟩
    simp only [true_iff]
    exact Or.inl (by rintro rfl; simp at hlen)
  · rw [if_neg hlen]
    have hruns : runArns = [] := by
      rcases runArns with _ | ⟨x, xs⟩
      · rfl
      · exact absurd (by simp) hlen
    subst hruns
    rw [hstop]
    dsimp only
    have hdesc' : ∀ arns ∈ pages.filter (fun p => !p.isEmpty),
        ∃ tasks, w.describeTasks arns = .ok tasks := by
      intro arns ha
      obtain ⟨hmem, hne⟩ := List.mem_filter.mp ha
      exact hdesc arns hmem (by simpa using hne)
    obtain ⟨b, hb, hiff⟩ := taskLoop_spec w cl _ hdesc'
    refine ⟨b, hb, ?_⟩
    rw [hiff]
    constructor
    · rintro ⟨arns, ha, hrest⟩
      obtain ⟨hmem, hne⟩ := List.mem_filter.mp ha
      exact Or.inr ⟨arns, hmem, by simpa using hne, hrest⟩
    · rintro (hne | ⟨arns, hmem, hne, hrest⟩)
      · exact absurd rfl hne
      · exact ⟨arns, List.mem_filter.mpr ⟨hmem, by simpa using hne⟩, hrest⟩

/-- C9: whenever the RUNNING-desired listing returns a non-empty first
page, `taskExists` returns true at once, with the RUNNING list call as
its only call: no STOPPED list call and no describe-tasks call. -/
theorem taskExists_short_circuit (w : World) (cl a : String) (runArns : List String)
    (hrun : w.listTasksRunning = .ok runArns) (hne : runArns ≠ []) :
    taskExists w cl a = (.ok true, [Call.listTasks cl a "RUNNING"]) := by
  unfold taskExists
  rw [hrun]
  dsimp only
  rw [if_pos (List.length_pos.mpr hne)]

/-! ### getContainerInstance semantics -/

theorem ciLoop_spec (w : World) (cl iid : String) :
    ∀ L, (∀ arns ∈ L, ∃ cis, w.describeContainerInstances arns = .ok cis) →
      (∃ ci, (ciLoop w cl iid L).1 = .ok ci ∧ ci.ec2InstanceId = iid ∧
          ∃ arns ∈ L, ∃ cis, w.describeContainerInstances arns = .ok cis ∧
            ∃ x ∈ cis, x.ec2InstanceId = iid) ∨
        ((ciLoop w cl iid L).1 = .error (.containerInstanceNotFound cl iid) ∧
          ¬ ∃ arns ∈ L, ∃ cis, w.describeContainerInstances arns = .ok cis ∧
            ∃ x ∈ cis, x.ec2InstanceId = iid) := by
  intro L
  induction L with
  | nil =>
    intro _
    exact Or.inr ⟨rfl, by simp⟩
  | cons arns rest ih =>
    intro hdesc
    obtain ⟨cis, hcis⟩ := hdesc arns (List.mem_cons_self arns rest)
    unfold ciLoop
    rw [hcis]
    dsimp only
    rcases hf : cis.find? (fun ci => ci.ec2InstanceId == iid) with _ | ci <;> rw [hf]
    · dsimp only
      have hnone : ∀ x ∈ cis, x.ec2InstanceId ≠ iid := by
        intro x hx
        have := List.find?_eq_none.mp hf x hx
        simpa using this
      rcases ih (fun a ha => hdesc a (List.mem_cons_of_mem arns ha)) with
        ⟨ci, hok, hid, a, ha, hrest⟩ | ⟨herr, hnP⟩
      · exact Or.inl ⟨ci, hok, hid, a, List.mem_cons_of_mem arns ha, hrest⟩
      · refine Or.inr ⟨herr, ?_⟩
        rintro ⟨a, ha, cis', hcis', x, hx, hid⟩
        rcases List.mem_cons.mp ha with rfl | ha
        · rw [hcis] at hcis'
          injection hcis' with hcis'
          subst hcis'
          exact hnone x hx hid
        · exact hnP ⟨a, ha, cis', hcis', x, hx, hid⟩
    · have hid : ci.ec2InstanceId = iid := by
        have := List.find?_some hf
        simpa using this
      exact Or.inl ⟨ci, rfl, hid,
        arns, List.mem_cons_self arns rest, cis, hcis, ci, List.mem_of_find?_eq_some hf, hid⟩

/-- C7: `getContainerInstance` returns a container instance whose
underlying EC2 instance id equals the given id whenever one exists on
some page of the cluster's container-instance list, and fails with the
not-found error exactly when no page contains a match (assuming no
external call errors). -/
theorem getContainerInstance_spec (w : World) (cl iid : String) (pages : List (List String))
    (hpages : w.containerInstancePages = .ok pages)
    (hdesc : ∀ arns ∈ pages, arns ≠ [] → ∃ cis, w.describeContainerInstances arns = .ok cis) :
    ((∃ arns ∈ pages, arns ≠ [] ∧ ∃ cis, w.describeContainerInstances arns = .ok cis ∧
        ∃ x ∈ cis, x.ec2InstanceId = iid) →
      ∃ ci, (getContainerInstance w cl iid).1 = .ok ci ∧ ci.ec2InstanceId = iid) ∧
    ((getContainerInstance w cl iid).1 = .error (.containerInstanceNotFound cl iid) ↔
      ¬ ∃ arns ∈ pages, arns ≠ [] ∧ ∃ cis, w.describeContainerInstances arns = .ok cis ∧
        ∃ x ∈ cis, x.ec2InstanceId = iid) := by
  unfold getContainerInstance
  rw [hpages]
  dsimp only
  have hdesc' : ∀ arns ∈ pages.filter (fun p => !p.isEmpty),
      ∃ cis, w.describeContainerInstances arns = .ok cis := by
    intro arns ha
    obtain ⟨hmem, hne⟩ := List.mem_filter.mp ha
    exact hdesc arns hmem (by simpa using hne)
  have hconv : (∃ arns ∈ pages.filter (fun p => !p.isEmpty),
      ∃ cis, w.describeContainerInstances arns = .ok cis ∧
        ∃ x ∈ cis, x.ec2InstanceId = iid) ↔
      (∃ arns ∈ pages, arns ≠ [] ∧ ∃ cis, w.describeContainerInstances arns = .ok cis ∧
        ∃ x ∈ cis, x.ec2InstanceId = iid) := by
    constructor
    · rintro ⟨arns, ha, hrest⟩
      obtain ⟨hmem, hne⟩ := List.mem_filter.mp ha
      exact ⟨arns, hmem, by simpa using hne, hrest⟩
    · rintro ⟨arns, hmem, hne, hrest⟩
      exact ⟨arns, List.mem_filter.mpr ⟨hmem, by simpa using hne⟩, hrest⟩
  rcases ciLoop_spec w cl iid _ hdesc' with ⟨ci, hok, hid, hP⟩ | ⟨herr, hnP⟩
  · constructor
    · intro _
      exact ⟨ci, hok, hid⟩
    · rw [hok]
      constructor
      · intro h
        exact absurd h (by simp)
      · intro hn
        exact absurd (hconv.mp hP) hn
  · constructor
    · intro hex
      exact absurd (hconv.mpr hex) hnP
    · rw [herr]
      simp only [hconv] at hnP
      simp [hnP]

/-! ### lifecycle-signal phase -/

theorem taskExists_calls_not_lifecycle (w : World) (cl a : String) :
    ∀ c ∈ (taskExists w cl a).2,
      isHeartbeatCall c = false ∧ isCompleteCall c = false ∧ isUpdateStateCall c = false := by
  intro c hc
  rcases taskExists_calls w cl a c hc with rfl | rfl | ⟨ts, rfl⟩ <;> exact ⟨rfl, rfl, rfl⟩

theorem getContainerInstance_calls_not_lifecycle (w : World) (cl iid : String) :
    ∀ c ∈ (getContainerInstance w cl iid).2,
      isHeartbeatCall c = false ∧ isCompleteCall c = false ∧ isUpdateStateCall c = false := by
  intro c hc
  rcases getContainerInstance_calls w cl iid c hc with rfl | ⟨a, rfl⟩ <;> exact ⟨rfl, rfl, rfl⟩

theorem countP_zero_of_false {p : Call → Bool} {l : List Call}
    (h : ∀ c ∈ l, p c = false) : l.countP p = 0 :=
  List.countP_eq_zero.mpr (fun c hc => by simp [h c hc])

theorem signalPhase_ok (w : World) (evt evt' : CloudWatchEvent) (cl a : String) (cs : List Call)
    (h : signalPhase w evt cl a = ((some evt', none), cs)) :
    (tasksRemain w = true →
      evt' = { evt with Detail := { evt.Detail with Wait := true } } ∧
      cs.countP isHeartbeatCall = 1 ∧ cs.countP isCompleteCall = 0 ∧
      Call.recordLifecycleActionHeartbeat evt.Detail.AutoScalingGroupName
        evt.Detail.LifecycleActionToken evt.Detail.LifecycleHookName ∈ cs) ∧
    (tasksRemain w = false →
      evt' = { evt with Detail := { evt.Detail with Wait := false } } ∧
      cs.countP isCompleteCall = 1 ∧ cs.countP isHeartbeatCall = 0 ∧
      Call.completeLifecycleAction evt.Detail.AutoScalingGroupName "CONTINUE"
        evt.Detail.LifecycleActionToken evt.Detail.LifecycleHookName ∈ cs) := by
  unfold signalPhase at h
  rcases hTE : taskExists w cl a with ⟨r4, cs4⟩
  rw [hTE] at h
  have hcs4 : ∀ c ∈ cs4, isHeartbeatCall c = false ∧ isCompleteCall c = false := by
    intro c hc
    have := taskExists_calls_not_lifecycle w cl a c (by rw [hTE]; exact hc)
    exact ⟨this.1, this.2.1⟩
  rcases r4 with e | found
  · simp at h
  · dsimp only at h
    have hfound : found = tasksRemain w :=
      taskExists_ok_eq w cl a found (by rw [hTE])
    rcases htr : tasksRemain w with _ | _ <;> rw [htr] at hfound <;> subst hfound
    · rw [if_neg (by simp)] at h
      rcases hC : complete w evt.Detail with ⟨rc, cs5⟩
      rw [hC] at h
      have hcs5 : cs5 = [Call.completeLifecycleAction evt.Detail.AutoScalingGroupName "CONTINUE"
          evt.Detail.LifecycleActionToken evt.Detail.LifecycleHookName] := by
        have := complete_calls w evt.Detail
        rw [hC] at this
        exact this
      rcases rc with e | u
      · simp at h
      · dsimp only at h
        simp only [Prod.mk.injEq, Option.some.injEq] at h
        obtain ⟨⟨hevt, -⟩, hcs⟩ := h
        subst hevt
        subst hcs
        constructor
        · intro hcon
          exact absurd hcon (by simp)
        · intro _
          refine ⟨rfl, ?_, ?_, ?_⟩
          · rw [List.countP_append, countP_zero_of_false (fun c hc => (hcs4 c hc).2), hcs5]
            rfl
          · rw [List.countP_append, countP_zero_of_false (fun c hc => (hcs4 c hc).1), hcs5]
            rfl
          · exact List.mem_append_right cs4 (by rw [hcs5]; exact List.mem_singleton.mpr rfl)
    · rw [if_pos rfl] at h
      rcases hH : heartbeat w evt.Detail with ⟨rh, cs5⟩
      rw [hH] at h
      have hcs5 : cs5 = [Call.recordLifecycleActionHeartbeat evt.Detail.AutoScalingGroupName
          evt.Detail.LifecycleActionToken evt.Detail.LifecycleHookName] := by
        have := heartbeat_calls w evt.Detail
        rw [hH] at this
        exact this
      rcases rh with e | u
      · simp at h
      · dsimp only at h
        simp only [Prod.mk.injEq, Option.some.injEq] at h
        obtain ⟨⟨hevt, -⟩, hcs⟩ := h
        subst hevt
        subst hcs
        constructor
        · intro _
          refine ⟨rfl, ?_, ?_, ?_⟩
          · rw [List.countP_append, countP_zero_of_false (fun c hc => (hcs4 c hc).1), hcs5]
            rfl
          · rw [List.countP_append, countP_zero_of_false (fun c hc => (hcs4 c hc).2), hcs5]
            rfl
          · exact List.mem_append_right cs4 (by rw [hcs5]; exact List.mem_singleton.mpr rfl)
        · intro hcon
          exact absurd hcon (by simp)

theorem signalPhase_no_update (w : World) (evt : CloudWatchEvent) (cl a : String) :
    ∀ c ∈ (signalPhase w evt cl a).2, isUpdateStateCall c = false := by
  intro c hc
  unfold signalPhase at hc
  rcases hTE : taskExists w cl a with ⟨r4, cs4⟩
  rw [hTE] at hc
  have hcs4 : ∀ x ∈ cs4, isUpdateStateCall x = false := fun x hx =>
    (taskExists_calls_not_lifecycle w cl a x (by rw [hTE]; exact hx)).2.2
  rcases r4 with e | found
  · exact hcs4 c hc
  · dsimp only at hc
    rcases found with _ | _
    · rw [if_neg (by simp)] at hc
      rcases hC : complete w evt.Detail with ⟨rc, cs5⟩
      rw [hC] at hc
      have hcs5 := complete_calls w evt.Detail
      rw [hC] at hcs5
      dsimp only at hcs5
      rcases rc with e | u <;> dsimp only at hc <;>
        rcases List.mem_append.mp hc with hc' | hc'
      · exact hcs4 c hc'
      · rw [hcs5] at hc'
        simp only [List.mem_singleton] at hc'
        subst hc'
        rfl
      · exact hcs4 c hc'
      · rw [hcs5] at hc'
        simp only [List.mem_singleton] at hc'
        subst hc'
        rfl
    · rw [if_pos rfl] at hc
      rcases hH : heartbeat w evt.Detail with ⟨rh, cs5⟩
      rw [hH] at hc
      have hcs5 := heartbeat_calls w evt.Detail
      rw [hH] at hcs5
      dsimp only at hcs5
      rcases rh with e | u <;> dsimp only at hc <;>
        rcases List.mem_append.mp hc with hc' | hc'
      · exact hcs4 c hc'
      · rw [hcs5] at hc'
        simp only [List.mem_singleton] at hc'
        subst hc'
        rfl
      · exact hcs4 c hc'
      · rw [hcs5] at hc'
        simp only [List.mem_singleton] at hc'
        subst hc'
        rfl

/-! ### draining phase -/

theorem drainPhase_ok (w : World) (evt evt' : CloudWatchEvent) (cl : String)
    (ci : ContainerInstance) (cs : List Call)
    (h : drainPhase w evt cl ci = ((some evt', none), cs)) :
    ∃ cs3 csSig, signalPhase w evt cl ci.containerInstanceArn = ((some evt', none), csSig) ∧
      cs = cs3 ++ csSig ∧ ∀ c ∈ cs3, isHeartbeatCall c = false ∧ isCompleteCall c = false := by
  unfold drainPhase at h
  by_cases hst : ci.status ≠ ContainerInstanceStatusDraining
  · rw [if_pos hst] at h
    rcases hS : setStateDraining w cl ci.containerInstanceArn with ⟨rs, cs3⟩
    rw [hS] at h
    have hcs3 := setStateDraining_calls w cl ci.containerInstanceArn
    rw [hS] at hcs3
    dsimp only at hcs3
    rcases rs with e | u
    · simp at h
    · dsimp only at h
      rcases hSig : signalPhase w evt cl ci.containerInstanceArn with ⟨rp, csSig⟩
      rw [hSig] at h
      simp only [Prod.mk.injEq] at h
      obtain ⟨hrp, hcs⟩ := h
      refine ⟨cs3, csSig, by rw [hrp], hcs.symm, ?_⟩
      intro c hc
      rw [hcs3] at hc
      simp only [List.mem_singleton] at hc
      subst hc
      exact ⟨rfl, rfl⟩
  · rw [if_neg hst] at h
    dsimp only at h
    rcases hSig : signalPhase w evt cl ci.containerInstanceArn with ⟨rp, csSig⟩
    rw [hSig] at h
    simp only [Prod.mk.injEq] at h
    obtain ⟨hrp, hcs⟩ := h
    exact ⟨[], csSig, by rw [hrp], by simpa using hcs.symm, by simp⟩

theorem drainPhase_update_count (w : World) (evt : CloudWatchEvent) (cl : String)
    (ci : ContainerInstance) :
    (drainPhase w evt cl ci).2.countP isUpdateStateCall =
      if ci.status = ContainerInstanceStatusDraining then 0 else 1 := by
  unfold drainPhase
  by_cases hst : ci.status = ContainerInstanceStatusDraining
  · rw [if_neg (not_not_intro hst), if_pos hst]
    dsimp only
    simp only [List.nil_append]
    exact countP_zero_of_false (signalPhase_no_update w evt cl ci.containerInstanceArn)
  · rw [if_pos hst, if_neg hst]
    rcases hS : setStateDraining w cl ci.containerInstanceArn with ⟨rs, cs3⟩
    have hcs3 := setStateDraining_calls w cl ci.containerInstanceArn
    rw [hS] at hcs3
    dsimp only at hcs3
    rcases rs with e | u
    · dsimp only
      rw [hcs3]
      rfl
    · dsimp only
      rw [List.countP_append, hcs3,
        countP_zero_of_false (signalPhase_no_update w evt cl ci.containerInstanceArn)]
      rfl

theorem signalPhase_disj (w : World) (evt : CloudWatchEvent) (cl a : String) :
    (∃ e, (signalPhase w evt cl a).1 = (none, some e)) ∨
      ∃ evt', (signalPhase w evt cl a).1 = (some evt', none) := by
  unfold signalPhase
  rcases taskExists w cl a with ⟨r4, cs4⟩
  rcases r4 with e | found
  · exact Or.inl ⟨e, rfl⟩
  · dsimp only
    rcases found with _ | _
    · rw [if_neg (by simp)]
      rcases complete w evt.Detail with ⟨rc, cs5⟩
      rcases rc with e | u
      · exact Or.inl ⟨e, rfl⟩
      · exact Or.inr ⟨_, rfl⟩
    · rw [if_pos rfl]
      rcases heartbeat w evt.Detail with ⟨rh, cs5⟩
      rcases rh with e | u
      · exact Or.inl ⟨e, rfl⟩
      · exact Or.inr ⟨_, rfl⟩

theorem drainPhase_disj (w : World) (evt : CloudWatchEvent) (cl : String)
    (ci : ContainerInstance) :
    (∃ e, (drainPhase w evt cl ci).1 = (none, some e)) ∨
      ∃ evt', (drainPhase w evt cl ci).1 = (some evt', none) := by
  unfold drainPhase
  by_cases hst : ci.status ≠ ContainerInstanceStatusDraining
  · rw [if_pos hst]
    rcases setStateDraining w cl ci.containerInstanceArn with ⟨rs, cs3⟩
    rcases rs with e | u
    · exact Or.inl ⟨e, rfl⟩
    · dsimp only
      exact signalPhase_disj w evt cl ci.containerInstanceArn
  · rw [if_neg hst]
    dsimp only
    exact signalPhase_disj w evt cl ci.containerInstanceArn

/-! ### handler unfolding equations -/

theorem handler_unfold_ok (w : World) (evt : CloudWatchEvent) (cn : String)
    (ci : ContainerInstance) (cs1 cs2 : List Call)
    (hdt : evt.DetailType = DetailTypeTerminateLifecycle)
    (hlt : evt.Detail.LifecycleTransition = LifecycleTransitionTerminating)
    (hcn : getECSClusterName w evt.Detail.EC2InstanceId = (.ok cn, cs1))
    (hci : getContainerInstance w cn evt.Detail.EC2InstanceId = (.ok ci, cs2)) :
    handler w evt = ((drainPhase w evt cn ci).1,
      (cs1 ++ cs2) ++ (drainPhase w evt cn ci).2) := by
  unfold handler
  rw [if_neg (not_not_intro hdt), if_neg (not_not_intro hlt), hcn]
  dsimp only
  rw [hci]

theorem handler_unfold_err1 (w : World) (evt : CloudWatchEvent) (e : HandlerError)
    (cs1 : List Call)
    (hdt : evt.DetailType = DetailTypeTerminateLifecycle)
    (hlt : evt.Detail.LifecycleTransition = LifecycleTransitionTerminating)
    (hcn : getECSClusterName w evt.Detail.EC2InstanceId = (.error e, cs1)) :
    handler w evt = ((none, some e), cs1) := by
  unfold handler
  rw [if_neg (not_not_intro hdt), if_neg (not_not_intro hlt), hcn]

theorem handler_unfold_err2 (w : World) (evt : CloudWatchEvent) (cn : String)
    (e : HandlerError) (cs1 cs2 : List Call)
    (hdt : evt.DetailType = DetailTypeTerminateLifecycle)
    (hlt : evt.Detail.LifecycleTransition = LifecycleTransitionTerminating)
    (hcn : getECSClusterName w evt.Detail.EC2InstanceId = (.ok cn, cs1))
    (hci : getContainerInstance w cn evt.Detail.EC2InstanceId = (.error e, cs2)) :
    handler w evt = ((none, some e), cs1 ++ cs2) := by
  unfold handler
  rw [if_neg (not_not_intro hdt), if_neg (not_not_intro hlt), hcn]
  dsimp only
  rw [hci]

/-- Anatomy of a successful handler run: validation passed, cluster name
and container instance were found, and the signal phase succeeded; the
calls before the signal phase are never lifecycle calls. -/
theorem handler_ok_cases (w : World) (evt evt' : CloudWatchEvent) (calls : List Call)
    (h : handler w evt = ((some evt', none), calls)) :
    ∃ cn ci cs1 cs2 cs3 csSig,
      evt.DetailType = DetailTypeTerminateLifecycle ∧
      evt.Detail.LifecycleTransition = LifecycleTransitionTerminating ∧
      getECSClusterName w evt.Detail.EC2InstanceId = (.ok cn, cs1) ∧
      getContainerInstance w cn evt.Detail.EC2InstanceId = (.ok ci, cs2) ∧
      signalPhase w evt cn ci.containerInstanceArn = ((some evt', none), csSig) ∧
      calls = (cs1 ++ cs2) ++ (cs3 ++ csSig) ∧
      (∀ c ∈ cs1, isHeartbeatCall c = false ∧ isCompleteCall c = false) ∧
      (∀ c ∈ cs2, isHeartbeatCall c = false ∧ isCompleteCall c = false) ∧
      (∀ c ∈ cs3, isHeartbeatCall c = false ∧ isCompleteCall c = false) := by
  by_cases hdt : evt.DetailType = DetailTypeTerminateLifecycle
  · by_cases hlt : evt.Detail.LifecycleTransition = LifecycleTransitionTerminating
    · rcases h1 : getECSClusterName w evt.Detail.EC2InstanceId with ⟨r1, cs1⟩
      rcases r1 with e | cn
      · rw [handler_unfold_err1 w evt e cs1 hdt hlt h1] at h
        simp at h
      · rcases h2 : getContainerInstance w cn evt.Detail.EC2InstanceId with ⟨r2, cs2⟩
        rcases r2 with e | ci
        · rw [handler_unfold_err2 w evt cn e cs1 cs2 hdt hlt h1 h2] at h
          simp at h
        · rw [handler_unfold_ok w evt cn ci cs1 cs2 hdt hlt h1 h2] at h
          rcases hd : drainPhase w evt cn ci with ⟨rd, csd⟩
          rw [hd] at h
          simp only [Prod.mk.injEq] at h
          obtain ⟨hrd, hcalls⟩ := h
          rw [hrd] at hd
          obtain ⟨cs3, csSig, hSig, hcsd, hcs3⟩ := drainPhase_ok w evt evt' cn ci csd hd
          have hcs1 : cs1 = [Call.describeInstanceAttribute evt.Detail.EC2InstanceId] := by
            have := getECSClusterName_calls w evt.Detail.EC2InstanceId
            rw [h1] at this
            exact this
          refine ⟨cn, ci, cs1, cs2, cs3, csSig, hdt, hlt, rfl, h2, hSig, ?_, ?_, ?_, hcs3⟩
          · rw [← hcalls, hcsd]
          · intro c hc
            rw [hcs1] at hc
            simp only [List.mem_singleton] at hc
            subst hc
            exact ⟨rfl, rfl⟩
          · intro c hc
            have := getContainerInstance_calls_not_lifecycle w cn evt.Detail.EC2InstanceId c
              (by rw [h2]; exact hc)
            exact ⟨this.1, this.2.1⟩
    · unfold handler at h
      rw [if_neg (not_not_intro hdt), if_pos hlt] at h
      simp at h
  · unfold handler at h
    rw [if_pos hdt] at h
    simp at h

/-- C1: on every successful handler run, if any task reports RUNNING
(either via the RUNNING-desired listing or via the STOPPED-desired
recheck) then exactly one heartbeat call and no complete call occur and
the output Wait flag is true; otherwise exactly one complete call (with
lifecycle action result CONTINUE) and no heartbeat call occur and the
output Wait flag is false. -/
theorem handler_lifecycle_signal (w : World) (evt evt' : CloudWatchEvent) (calls : List Call)
    (h : handler w evt = ((some evt', none), calls)) :
    (tasksRemain w = true →
      calls.countP isHeartbeatCall = 1 ∧ calls.countP isCompleteCall = 0 ∧
      evt'.Detail.Wait = true) ∧
    (tasksRemain w = false →
      calls.countP isCompleteCall = 1 ∧ calls.countP isHeartbeatCall = 0 ∧
      Call.completeLifecycleAction evt.Detail.AutoScalingGroupName "CONTINUE"
        evt.Detail.LifecycleActionToken evt.Detail.LifecycleHookName ∈ calls ∧
      evt'.Detail.Wait = false) := by
  obtain ⟨cn, ci, cs1, cs2, cs3, csSig, hdt, hlt, h1, h2, hSig, hcalls, z1, z2, z3⟩ :=
    handler_ok_cases w evt evt' calls h
  have hsig := signalPhase_ok w evt evt' cn ci.containerInstanceArn csSig hSig
  subst hcalls
  constructor
  · intro htr
    obtain ⟨hevt', hH1, hC0, -⟩ := hsig.1 htr
    refine ⟨?_, ?_, ?_⟩
    · simp only [List.countP_append]
      rw [countP_zero_of_false (fun c hc => (z1 c hc).1),
        countP_zero_of_false (fun c hc => (z2 c hc).1),
        countP_zero_of_false (fun c hc => (z3 c hc).1), hH1]
    · simp only [List.countP_append]
      rw [countP_zero_of_false (fun c hc => (z1 c hc).2),
        countP_zero_of_false (fun c hc => (z2 c hc).2),
        countP_zero_of_false (fun c hc => (z3 c hc).2), hC0]
    · subst hevt'
      rfl
  · intro htr
    obtain ⟨hevt', hC1, hH0, hmem⟩ := hsig.2 htr
    refine ⟨?_, ?_, ?_, ?_⟩
    · simp only [List.countP_append]
      rw [countP_zero_of_false (fun c hc => (z1 c hc).2),
        countP_zero_of_false (fun c hc => (z2 c hc).2),
        countP_zero_of_false (fun c hc => (z3 c hc).2), hC1]
    · simp only [List.countP_append]
      rw [countP_zero_of_false (fun c hc => (z1 c hc).1),
        countP_zero_of_false (fun c hc => (z2 c hc).1),
        countP_zero_of_false (fun c hc => (z3 c hc).1), hH0]
    · exact List.mem_append_right _ (List.mem_append_right _ hmem)
    · subst hevt'
      rfl

/-- C5: a successful handler run returns the input event with every
field unchanged except the Wait flag inside the detail, and the Wait
flag is present (a boolean) in the output detail. -/
theorem handler_frame (w : World) (evt evt' : CloudWatchEvent) (calls : List Call)
    (h : handler w evt = ((some evt', none), calls)) :
    evt' = { evt with Detail := { evt.Detail with Wait := evt'.Detail.Wait } } ∧
    (evt'.Detail.Wait = true ∨ evt'.Detail.Wait = false) := by
  obtain ⟨cn, ci, cs1, cs2, cs3, csSig, hdt, hlt, h1, h2, hSig, hcalls, z1, z2, z3⟩ :=
    handler_ok_cases w evt evt' calls h
  have hsig := signalPhase_ok w evt evt' cn ci.containerInstanceArn csSig hSig
  rcases htr : tasksRemain w with _ | _
  · obtain ⟨hevt', -⟩ := hsig.2 htr
    subst hevt'
    exact ⟨rfl, Or.inr rfl⟩
  · obtain ⟨hevt', -⟩ := hsig.1 htr
    subst hevt'
    exact ⟨rfl, Or.inl rfl⟩

/-- C3: an event whose detail-type or whose LifecycleTransition does not
match the expected constant makes the handler fail with a validation
error and no cloud calls; and the two comparison constants equal the
expected strings verbatim. -/
theorem handler_validation (w : World) (evt : CloudWatchEvent)
    (h : evt.DetailType ≠ DetailTypeTerminateLifecycle ∨
      evt.Detail.LifecycleTransition ≠ LifecycleTransitionTerminating) :
    (∃ e, handler w evt = ((none, some e), []) ∧ isValidationError e = true) ∧
    DetailTypeTerminateLifecycle = "EC2 Instance-terminate Lifecycle Action" ∧
    LifecycleTransitionTerminating = "autoscaling:EC2_INSTANCE_TERMINATING" := by
  refine ⟨?_, rfl, rfl⟩
  by_cases hdt : evt.DetailType = DetailTypeTerminateLifecycle
  · have hlt : evt.Detail.LifecycleTransition ≠ LifecycleTransitionTerminating := by
      rcases h with h | h
      · exact absurd hdt h
      · exact h
    refine ⟨.lifecycleTransitionMismatch evt.Detail.LifecycleTransition, ?_, rfl⟩
    unfold handler
    rw [if_neg (not_not_intro hdt), if_pos hlt]
  · refine ⟨.detailTypeMismatch evt.DetailType, ?_, rfl⟩
    unfold handler
    rw [if_pos hdt]

/-- C4: when validation passes and the cluster name and container
instance are found, the handler makes no UpdateContainerInstancesState
call if the fetched status is already DRAINING, and exactly one such
call (with status DRAINING) otherwise; in particular a second invocation
on an already-draining instance makes no further state-change call. -/
theorem handler_drain_idempotent (w : World) (evt : CloudWatchEvent) (cn : String)
    (ci : ContainerInstance) (cs1 cs2 : List Call)
    (hdt : evt.DetailType = DetailTypeTerminateLifecycle)
    (hlt : evt.Detail.LifecycleTransition = LifecycleTransitionTerminating)
    (hcn : getECSClusterName w evt.Detail.EC2InstanceId = (.ok cn, cs1))
    (hci : getContainerInstance w cn evt.Detail.EC2InstanceId = (.ok ci, cs2)) :
    (handler w evt).2.countP isUpdateStateCall =
      if ci.status = ContainerInstanceStatusDraining then 0 else 1 := by
  rw [handler_unfold_ok w evt cn ci cs1 cs2 hdt hlt hcn hci]
  dsimp only
  simp only [List.countP_append]
  have z1 : cs1.countP isUpdateStateCall = 0 := by
    have hcs1 := getECSClusterName_calls w evt.Detail.EC2InstanceId
    rw [hcn] at hcs1
    dsimp only at hcs1
    rw [hcs1]
    rfl
  have z2 : cs2.countP isUpdateStateCall = 0 :=
    countP_zero_of_false (fun c hc =>
      (getContainerInstance_calls_not_lifecycle w cn evt.Detail.EC2InstanceId c
        (by rw [hci]; exact hc)).2.2)
  rw [z1, z2, drainPhase_update_count]
  simp

/-- C8: if the instance-attribute lookup yields no user-data value or a
value that is not valid base64, the handler fails (with an error that is
not the cluster-extraction error) and makes no ECS call at all. -/
theorem handler_userdata_failure (w : World) (evt : CloudWatchEvent)
    (h : w.userDataValue = .ok none ∨
      ∃ v, w.userDataValue = .ok (some v) ∧ base64Decode v.data = none) :
    (∃ e, (handler w evt).1 = (none, some e) ∧
      (isValidationError e = true ∨ e = .userDataMissing evt.Detail.EC2InstanceId ∨
        e = .base64DecodeError)) ∧
    ∀ c ∈ (handler w evt).2, isECSCall c = false := by
  have hgecn : ∃ e0, getECSClusterName w evt.Detail.EC2InstanceId =
      (.error e0, [Call.describeInstanceAttribute evt.Detail.EC2InstanceId]) ∧
      (e0 = HandlerError.userDataMissing evt.Detail.EC2InstanceId ∨
        e0 = HandlerError.base64DecodeError) := by
    rcases h with h | ⟨v, hv, hd⟩
    · refine ⟨.userDataMissing evt.Detail.EC2InstanceId, ?_, Or.inl rfl⟩
      unfold getECSClusterName getUserData
      rw [h]
    · refine ⟨.base64DecodeError, ?_, Or.inr rfl⟩
      unfold getECSClusterName getUserData
      rw [hv]
      dsimp only
      rw [hd]
  obtain ⟨e0, hcn, he0⟩ := hgecn
  by_cases hdt : evt.DetailType = DetailTypeTerminateLifecycle
  · by_cases hlt : evt.Detail.LifecycleTransition = LifecycleTransitionTerminating
    · rw [handler_unfold_err1 w evt e0 _ hdt hlt hcn]
      refine ⟨⟨e0, rfl, Or.inr he0⟩, ?_⟩
      intro c hc
      simp only [List.mem_singleton] at hc
      subst hc
      rfl
    · unfold handler
      rw [if_neg (not_not_intro hdt), if_pos hlt]
      exact ⟨⟨_, rfl, Or.inl rfl⟩, by simp⟩
  · unfold handler
    rw [if_pos hdt]
    exact ⟨⟨_, rfl, Or.inl rfl⟩, by simp⟩

/-! ### error propagation from failed lifecycle calls -/

theorem signalPhase_heartbeat_fail (w : World) (evt : CloudWatchEvent) (cl a msg : String)
    (hhb : w.heartbeatResult = .error msg)
    (hmem : ∃ c ∈ (signalPhase w evt cl a).2, isHeartbeatCall c = true) :
    (signalPhase w evt cl a).1 = (none, some (.awsError msg)) := by
  obtain ⟨c, hc, hbc⟩ := hmem
  unfold signalPhase at hc ⊢
  rcases hTE : taskExists w cl a with ⟨r4, cs4⟩
  rw [hTE] at hc
  have hcs4 : ∀ x ∈ cs4, isHeartbeatCall x = false := fun x hx =>
    (taskExists_calls_not_lifecycle w cl a x (by rw [hTE]; exact hx)).1
  rcases r4 with e | found
  · dsimp only at hc
    rw [hcs4 c hc] at hbc
    simp at hbc
  · dsimp only at hc ⊢
    rcases found with _ | _
    · rw [if_neg (by simp)] at hc ⊢
      rcases hC : complete w evt.Detail with ⟨rc, cs5⟩
      rw [hC] at hc
      have hcs5 := complete_calls w evt.Detail
      rw [hC] at hcs5
      dsimp only at hcs5
      rcases rc with e | u <;> dsimp only at hc <;>
          rcases List.mem_append.mp hc with hc' | hc'
      · rw [hcs4 c hc'] at hbc
        simp at hbc
      · rw [hcs5] at hc'
        simp only [List.mem_singleton] at hc'
        subst hc'
        simp [isHeartbeatCall] at hbc
      · rw [hcs4 c hc'] at hbc
        simp at hbc
      · rw [hcs5] at hc'
        simp only [List.mem_singleton] at hc'
        subst hc'
        simp [isHeartbeatCall] at hbc
    · rw [if_pos rfl]
      unfold heartbeat
      rw [hhb]

theorem signalPhase_complete_fail (w : World) (evt : CloudWatchEvent) (cl a msg : String)
    (hcm : w.completeResult = .error msg)
    (hmem : ∃ c ∈ (signalPhase w evt cl a).2, isCompleteCall c = true) :
    (signalPhase w evt cl a).1 = (none, some (.awsError msg)) := by
  obtain ⟨c, hc, hbc⟩ := hmem
  unfold signalPhase at hc ⊢
  rcases hTE : taskExists w cl a with ⟨r4, cs4⟩
  rw [hTE] at hc
  have hcs4 : ∀ x ∈ cs4, isCompleteCall x = false := fun x hx =>
    (taskExists_calls_not_lifecycle w cl a x (by rw [hTE]; exact hx)).2.1
  rcases r4 with e | found
  · dsimp only at hc
    rw [hcs4 c hc] at hbc
    simp at hbc
  · dsimp only at hc ⊢
    rcases found with _ | _
    · rw [if_neg (by simp)]
      unfold complete
      rw [hcm]
    · rw [if_pos rfl] at hc ⊢
      rcases hH : heartbeat w evt.Detail with ⟨rh, cs5⟩
      rw [hH] at hc
      have hcs5 := heartbeat_calls w evt.Detail
      rw [hH] at hcs5
      dsimp only at hcs5
      rcases rh with e | u <;> dsimp only at hc <;>
          rcases List.mem_append.mp hc with hc' | hc'
      · rw [hcs4 c hc'] at hbc
        simp at hbc
      · rw [hcs5] at hc'
        simp only [List.mem_singleton] at hc'
        subst hc'
        simp [isCompleteCall] at hbc
      · rw [hcs4 c hc'] at hbc
        simp at hbc
      · rw [hcs5] at hc'
        simp only [List.mem_singleton] at hc'
        subst hc'
        simp [isCompleteCall] at hbc

theorem drainPhase_heartbeat_fail (w : World) (evt : CloudWatchEvent) (cl msg : String)
    (ci : ContainerInstance)
    (hhb : w.heartbeatResult = .error msg)
    (hmem : ∃ c ∈ (drainPhase w evt cl ci).2, isHeartbeatCall c = true) :
    (drainPhase w evt cl ci).1 = (none, some (.awsError msg)) := by
  obtain ⟨c, hc, hbc⟩ := hmem
  unfold drainPhase at hc ⊢
  by_cases hst : ci.status ≠ ContainerInstanceStatusDraining
  · rw [if_pos hst] at hc ⊢
    rcases hS : setStateDraining w cl ci.containerInstanceArn with ⟨rs, cs3⟩
    rw [hS] at hc
    have hcs3 := setStateDraining_calls w cl ci.containerInstanceArn
    rw [hS] at hcs3
    dsimp only at hcs3
    rcases rs with e | u
    · dsimp only at hc
      rw [hcs3] at hc
      simp only [List.mem_singleton] at hc
      subst hc
      simp [isHeartbeatCall] at hbc
    · dsimp only at hc ⊢
      rcases List.mem_append.mp hc with hc' | hc'
      · rw [hcs3] at hc'
        simp only [List.mem_singleton] at hc'
        subst hc'
        simp [isHeartbeatCall] at hbc
      · exact signalPhase_heartbeat_fail w evt cl ci.containerInstanceArn msg hhb ⟨c, hc', hbc⟩
  · rw [if_neg hst] at hc ⊢
    dsimp only at hc ⊢
    rw [List.nil_append] at hc
    exact signalPhase_heartbeat_fail w evt cl ci.containerInstanceArn msg hhb ⟨c, hc, hbc⟩

theorem drainPhase_complete_fail (w : World) (evt : CloudWatchEvent) (cl msg : String)
    (ci : ContainerInstance)
    (hcm : w.completeResult = .error msg)
    (hmem : ∃ c ∈ (drainPhase w evt cl ci).2, isCompleteCall c = true) :
    (drainPhase w evt cl ci).1 = (none, some (.awsError msg)) := by
  obtain ⟨c, hc, hbc⟩ := hmem
  unfold drainPhase at hc ⊢
  by_cases hst : ci.status ≠ ContainerInstanceStatusDraining
  · rw [if_pos hst] at hc ⊢
    rcases hS : setStateDraining w cl ci.containerInstanceArn with ⟨rs, cs3⟩
    rw [hS] at hc
    have hcs3 := setStateDraining_calls w cl ci.containerInstanceArn
    rw [hS] at hcs3
    dsimp only at hcs3
    rcases rs with e | u
    · dsimp only at hc
      rw [hcs3] at hc
      simp only [List.mem_singleton] at hc
      subst hc
      simp [isCompleteCall] at hbc
    · dsimp only at hc ⊢
      rcases List.mem_append.mp hc with hc' | hc'
      · rw [hcs3] at hc'
        simp only [List.mem_singleton] at hc'
        subst hc'
        simp [isCompleteCall] at hbc
      · exact signalPhase_complete_fail w evt cl ci.containerInstanceArn msg hcm ⟨c, hc', hbc⟩
  · rw [if_neg hst] at hc ⊢
    dsimp only at hc ⊢
    rw [List.nil_append] at hc
    exact signalPhase_complete_fail w evt cl ci.containerInstanceArn msg hcm ⟨c, hc, hbc⟩

theorem handler_disj (w : World) (evt : CloudWatchEvent) :
    (∃ e, (handler w evt).1 = (none, some e)) ∨
      ∃ evt', (handler w evt).1 = (some evt', none) := by
  by_cases hdt : evt.DetailType = DetailTypeTerminateLifecycle
  · by_cases hlt : evt.Detail.LifecycleTransition = LifecycleTransitionTerminating
    · rcases h1 : getECSClusterName w evt.Detail.EC2InstanceId with ⟨r1, cs1⟩
      rcases r1 with e | cn
      · rw [handler_unfold_err1 w evt e cs1 hdt hlt h1]
        exact Or.inl ⟨e, rfl⟩
      · rcases h2 : getContainerInstance w cn evt.Detail.EC2InstanceId with ⟨r2, cs2⟩
        rcases r2 with e | ci
        · rw [handler_unfold_err2 w evt cn e cs1 cs2 hdt hlt h1 h2]
          exact Or.inl ⟨e, rfl⟩
        · rw [handler_unfold_ok w evt cn ci cs1 cs2 hdt hlt h1 h2]
          exact drainPhase_disj w evt cn ci
    · unfold handler
      rw [if_neg (not_not_intro hdt), if_pos hlt]
      exact Or.inl ⟨_, rfl⟩
  · unfold handler
    rw [if_pos hdt]
    exact Or.inl ⟨_, rfl⟩

/-- C10: when the handler returns an error it returns no output event
(so the Wait flag is never delivered on error); in particular a failed
heartbeat call, or a failed complete call, that the run actually reached
makes the whole run fail with that error, leaving the event detail
unmodified. -/
theorem handler_error_no_event (w : World) (evt : CloudWatchEvent) :
    (∀ e, (handler w evt).1.2 = some e → (handler w evt).1.1 = none) ∧
    (∀ msg, w.heartbeatResult = .error msg →
      (∃ c ∈ (handler w evt).2, isHeartbeatCall c = true) →
      (handler w evt).1 = (none, some (.awsError msg))) ∧
    (∀ msg, w.completeResult = .error msg →
      (∃ c ∈ (handler w evt).2, isCompleteCall c = true) →
      (handler w evt).1 = (none, some (.awsError msg))) := by
  refine ⟨?_, ?_, ?_⟩
  · intro e he
    rcases handler_disj w evt with ⟨e', he'⟩ | ⟨evt', hok⟩
    · rw [he']
    · rw [hok] at he
      simp at he
  · intro msg hhb hmem
    by_cases hdt : evt.DetailType = DetailTypeTerminateLifecycle
    · by_cases hlt : evt.Detail.LifecycleTransition = LifecycleTransitionTerminating
      · rcases h1 : getECSClusterName w evt.Detail.EC2InstanceId with ⟨r1, cs1⟩
        rcases r1 with e | cn
        · rw [handler_unfold_err1 w evt e cs1 hdt hlt h1] at hmem
          obtain ⟨c, hc, hbc⟩ := hmem
          have hcs1 := getECSClusterName_calls w evt.Detail.EC2InstanceId
          rw [h1] at hcs1
          dsimp only at hcs1 hc
          rw [hcs1] at hc
          simp only [List.mem_singleton] at hc
          subst hc
          simp [isHeartbeatCall] at hbc
        · rcases h2 : getContainerInstance w cn evt.Detail.EC2InstanceId with ⟨r2, cs2⟩
          rcases r2 with e | ci
          · rw [handler_unfold_err2 w evt cn e cs1 cs2 hdt hlt h1 h2] at hmem
            obtain ⟨c, hc, hbc⟩ := hmem
            dsimp only at hc
            rcases List.mem_append.mp hc with hc' | hc'
            · have hcs1 := getECSClusterName_calls w evt.Detail.EC2InstanceId
              rw [h1] at hcs1
              dsimp only at hcs1
              rw [hcs1] at hc'
              simp only [List.mem_singleton] at hc'
              subst hc'
              simp [isHeartbeatCall] at hbc
            · have := getContainerInstance_calls_not_lifecycle w cn evt.Detail.EC2InstanceId c
                (by rw [h2]; exact hc')
              rw [this.1] at hbc
              simp at hbc
          · rw [handler_unfold_ok w evt cn ci cs1 cs2 hdt hlt h1 h2] at hmem ⊢
            dsimp only at hmem ⊢
            obtain ⟨c, hc, hbc⟩ := hmem
            rcases List.mem_append.mp hc with hc' | hc'
            · rcases List.mem_append.mp hc' with hc'' | hc''
              · have hcs1 := getECSClusterName_calls w evt.Detail.EC2InstanceId
                rw [h1] at hcs1
                dsimp only at hcs1
                rw [hcs1] at hc''
                simp only [List.mem_singleton] at hc''
                subst hc''
                simp [isHeartbeatCall] at hbc
              · have := getContainerInstance_calls_not_lifecycle w cn evt.Detail.EC2InstanceId c
                  (by rw [h2]; exact hc'')
                rw [this.1] at hbc
                simp at hbc
            · exact drainPhase_heartbeat_fail w evt cn msg ci hhb ⟨c, hc', hbc⟩
      · unfold handler at hmem
        rw [if_neg (not_not_intro hdt), if_pos hlt] at hmem
        obtain ⟨c, hc, -⟩ := hmem
        simp at hc
    · unfold handler at hmem
      rw [if_pos hdt] at hmem
      obtain ⟨c, hc, -⟩ := hmem
      simp at hc
  · intro msg hcm hmem
    by_cases hdt : evt.DetailType = DetailTypeTerminateLifecycle
    · by_cases hlt : evt.Detail.LifecycleTransition = LifecycleTransitionTerminating
      · rcases h1 : getECSClusterName w evt.Detail.EC2InstanceId with ⟨r1, cs1⟩
        rcases r1 with e | cn
        · rw [handler_unfold_err1 w evt e cs1 hdt hlt h1] at hmem
          obtain ⟨c, hc, hbc⟩ := hmem
          have hcs1 := getECSClusterName_calls w evt.Detail.EC2InstanceId
          rw [h1] at hcs1
          dsimp only at hcs1 hc
          rw [hcs1] at hc
          simp only [List.mem_singleton] at hc
          subst hc
          simp [isCompleteCall] at hbc
        · rcases h2 : getContainerInstance w cn evt.Detail.EC2InstanceId with ⟨r2, cs2⟩
          rcases r2 with e | ci
          · rw [handler_unfold_err2 w evt cn e cs1 cs2 hdt hlt h1 h2] at hmem
            obtain ⟨c, hc, hbc⟩ := hmem
            dsimp only at hc
            rcases List.mem_append.mp hc with hc' | hc'
            · have hcs1 := getECSClusterName_calls w evt.Detail.EC2InstanceId
              rw [h1] at hcs1
              dsimp only at hcs1
              rw [hcs1] at hc'
              simp only [List.mem_singleton] at hc'
              subst hc'
              simp [isCompleteCall] at hbc
            · have := getContainerInstance_calls_not_lifecycle w cn evt.Detail.EC2InstanceId c
                (by rw [h2]; exact hc')
              rw [this.2.1] at hbc
              simp at hbc
          · rw [handler_unfold_ok w evt cn ci cs1 cs2 hdt hlt h1 h2] at hmem ⊢
            dsimp only at hmem ⊢
            obtain ⟨c, hc, hbc⟩ := hmem
            rcases List.mem_append.mp hc with hc' | hc'
            · rcases List.mem_append.mp hc' with hc'' | hc''
              · have hcs1 := getECSClusterName_calls w evt.Detail.EC2InstanceId
                rw [h1] at hcs1
                dsimp only at hcs1
                rw [hcs1] at hc''
                simp only [List.mem_singleton] at hc''
                subst hc''
                simp [isCompleteCall] at hbc
              · have := getContainerInstance_calls_not_lifecycle w cn evt.Detail.EC2InstanceId c
                  (by rw [h2]; exact hc'')
                rw [this.2.1] at hbc
                simp at hbc
            · exact drainPhase_complete_fail w evt cn msg ci hcm ⟨c, hc', hbc⟩
      · unfold handler at hmem
        rw [if_neg (not_not_intro hdt), if_pos hlt] at hmem
        obtain ⟨c, hc, -⟩ := hmem
        simp at hc
    · unfold handler at hmem
      rw [if_pos hdt] at hmem
      obtain ⟨c, hc, -⟩ := hmem
      simp at hc

/-! ### correctness of the ECS_CLUSTER matcher -/

theorem stripLit_some_iff : ∀ (l s r : List Char), stripLit l s = some r ↔ s = l ++ r := by
  intro l
  induction l with
  | nil =>
    intro s r
    simp [stripLit, eq_comm]
  | cons ld ls ih =>
    intro s r
    cases s with
    | nil => simp [stripLit]
    | cons c cs =>
      simp only [stripLit]
      by_cases hc : c = ld
      · rw [if_pos hc, ih]
        subst hc
        simp [List.cons_append]
      · rw [if_neg hc]
        simp [List.cons_append, hc]

theorem takeWhile_append_of : ∀ (cap post : List Char), (∀ c ∈ cap, capChar c = true) →
    headNotCap post → (cap ++ post).takeWhile capChar = cap := by
  intro cap
  induction cap with
  | nil =>
    intro post _ hpost
    cases post with
    | nil => rfl
    | cons c cs =>
      simp only [List.nil_append]
      exact List.takeWhile_cons_of_neg (by simp [show capChar c = false from hpost])
  | cons a as ih =>
    intro post hall hpost
    simp only [List.cons_append]
    rw [List.takeWhile_cons_of_pos (hall a (List.mem_cons_self _ _))]
    rw [ih post (fun c hc => hall c (List.mem_cons_of_mem _ hc)) hpost]

theorem headNotCap_dropWhile : ∀ l : List Char, headNotCap (l.dropWhile capChar) := by
  intro l
  induction l with
  | nil => trivial
  | cons c cs ih =>
    by_cases hc : capChar c = true
    · rw [List.dropWhile_cons_of_pos hc]
      exact ih
    · rw [List.dropWhile_cons_of_neg hc]
      exact Bool.eq_false_iff.mpr hc

theorem matchHere_some_iff (s cap : List Char) : matchHere s = some cap ↔
    ∃ post, s = litChars ++ cap ++ post ∧ cap ≠ [] ∧
      (∀ c ∈ cap, capChar c = true) ∧ headNotCap post := by
  unfold matchHere
  constructor
  · intro h
    rcases hstrip : stripLit litChars s with _ | r <;> rw [hstrip] at h
    · cases h
    · dsimp only at h
      by_cases hemp : (r.takeWhile capChar).isEmpty = true
      · rw [if_pos hemp] at h
        cases h
      · rw [if_neg hemp] at h
        injection h with h
        subst h
        refine ⟨r.dropWhile capChar, ?_, ?_, ?_, headNotCap_dropWhile r⟩
        · rw [(stripLit_some_iff litChars s r).mp hstrip, List.append_assoc,
            List.takeWhile_append_dropWhile]
        · intro hcap
          rw [hcap] at hemp
          exact hemp rfl
        · intro c hc
          exact List.mem_takeWhile_imp hc
  · rintro ⟨post, hs, hne, hall, hpost⟩
    have hstrip : stripLit litChars s = some (cap ++ post) :=
      (stripLit_some_iff _ _ _).mpr (by rw [hs, List.append_assoc])
    rw [hstrip]
    dsimp only
    rw [takeWhile_append_of cap post hall hpost]
    rw [if_neg (by simpa using hne)]

theorem matchesAt_append_head (pre s cap : List Char) :
    matchesAt (pre ++ s) pre.length cap ↔
      (lastIsWord pre = false ∧ matchHere s = some cap) := by
  constructor
  · rintro ⟨pre2, post, heq, hlen, hbound, hne, hall, hpost⟩
    have heq' : pre ++ s = pre2 ++ (litChars ++ (cap ++ post)) := by
      rw [heq]
      simp [List.append_assoc]
    obtain ⟨h1, h2⟩ := List.append_inj heq' hlen.symm
    subst h1
    constructor
    · unfold lastIsWord
      rcases hlast : List.getLast? pre with _ | c
      · rfl
      · exact hbound c hlast
    · refine (matchHere_some_iff s cap).mpr ⟨post, ?_, hne, hall, hpost⟩
      rw [h2, List.append_assoc]
  · rintro ⟨hlast, hmh⟩
    obtain ⟨post, hs, hne, hall, hpost⟩ := (matchHere_some_iff s cap).mp hmh
    refine ⟨pre, post, ?_, rfl, ?_, hne, hall, hpost⟩
    · rw [hs]
      simp [List.append_assoc]
    · intro c hc
      unfold lastIsWord at hlast
      rw [hc] at hlast
      exact hlast

theorem matchesAt_length {s : List Char} {i : Nat} {cap : List Char}
    (h : matchesAt s i cap) : i + litChars.length + cap.length ≤ s.length := by
  obtain ⟨pre, post, heq, hlen, -, -, -, -⟩ := h
  rw [heq]
  simp only [List.length_append, hlen]
  omega

theorem lastIsWord_concat (pre : List Char) (c : Char) :
    lastIsWord (pre ++ [c]) = isWordChar c := by
  unfold lastIsWord
  rw [List.getLast?_concat]

theorem findFrom_none : ∀ (s pre : List Char), findFrom (lastIsWord pre) s = none →
    ∀ i cap, pre.length ≤ i → ¬ matchesAt (pre ++ s) i cap := by
  intro s
  induction s with
  | nil =>
    intro pre h i cap hi hm
    have hlen := matchesAt_length hm
    simp [litChars] at hlen
    omega
  | cons c cs ih =>
    intro pre h i cap hi hm
    unfold findFrom at h
    rcases hpw : lastIsWord pre with _ | _ <;> rw [hpw] at h
    · rw [if_neg (by simp)] at h
      rcases hmh : matchHere (c :: cs) with _ | cap0 <;> rw [hmh] at h
      · rcases Nat.eq_or_lt_of_le hi with heq | hlt
        · subst heq
          have := (matchesAt_append_head pre (c :: cs) cap).mp hm
          rw [hmh] at this
          exact Option.noConfusion this.2
        · refine ih (pre ++ [c]) (by rw [lastIsWord_concat]; exact h) i cap
            (by simp; omega) ?_
          rw [List.append_assoc, List.singleton_append]
          exact hm
      · cases h
    · rw [if_pos rfl] at h
      rcases Nat.eq_or_lt_of_le hi with heq | hlt
      · subst heq
        have := (matchesAt_append_head pre (c :: cs) cap).mp hm
        rw [hpw] at this
        exact Bool.noConfusion this.1
      · refine ih (pre ++ [c]) (by rw [lastIsWord_concat]; exact h) i cap
          (by simp; omega) ?_
        rw [List.append_assoc, List.singleton_append]
        exact hm

theorem findFrom_some : ∀ (s pre cap : List Char), findFrom (lastIsWord pre) s = some cap →
    ∃ i, pre.length ≤ i ∧ matchesAt (pre ++ s) i cap ∧
      ∀ j cap', pre.length ≤ j → matchesAt (pre ++ s) j cap' → i ≤ j := by
  intro s
  induction s with
  | nil =>
    intro pre cap h
    cases h
  | cons c cs ih =>
    intro pre cap h
    unfold findFrom at h
    rcases hpw : lastIsWord pre with _ | _ <;> rw [hpw] at h
    · rw [if_neg (by simp)] at h
      rcases hmh : matchHere (c :: cs) with _ | cap0 <;> rw [hmh] at h
      · obtain ⟨i, hi, hmatch, hmin⟩ := ih (pre ++ [c]) cap (by rw [lastIsWord_concat]; exact h)
        rw [List.append_assoc, List.singleton_append] at hmatch hmin
        refine ⟨i, by simp at hi; omega, hmatch, ?_⟩
        intro j cap' hj hm'
        rcases Nat.eq_or_lt_of_le hj with heq | hlt
        · subst heq
          have := (matchesAt_append_head pre (c :: cs) cap').mp hm'
          rw [hmh] at this
          exact Option.noConfusion this.2
        · exact hmin j cap' (by simp; omega) hm'
      · injection h with h
        subst h
        refine ⟨pre.length, le_refl _,
          (matchesAt_append_head pre (c :: cs) cap0).mpr ⟨hpw, hmh⟩, ?_⟩
        intro j cap' hj hm'
        exact hj
    · rw [if_pos rfl] at h
      obtain ⟨i, hi, hmatch, hmin⟩ := ih (pre ++ [c]) cap (by rw [lastIsWord_concat]; exact h)
      rw [List.append_assoc, List.singleton_append] at hmatch hmin
      refine ⟨i, by simp at hi; omega, hmatch, ?_⟩
      intro j cap' hj hm'
      rcases Nat.eq_or_lt_of_le hj with heq | hlt
      · subst heq
        have := (matchesAt_append_head pre (c :: cs) cap').mp hm'
        rw [hpw] at this
        exact Bool.noConfusion this.1
      · exact hmin j cap' (by simp; omega) hm'

theorem matchesAt_cap_eq {s : List Char} {i : Nat} {cap : List Char}
    (h : matchesAt s i cap) :
    cap = ((s.drop (i + litChars.length)).takeWhile capChar) := by
  obtain ⟨pre, post, heq, hlen, -, -, hall, hpost⟩ := h
  subst heq
  have hassoc : pre ++ litChars ++ cap ++ post = (pre ++ litChars) ++ (cap ++ post) := by
    simp [List.append_assoc]
  rw [hassoc, List.drop_left' (by simp [hlen]), takeWhile_append_of cap post hall hpost]

theorem matchesAt_unique {s : List Char} {i : Nat} {cap cap' : List Char}
    (h1 : matchesAt s i cap) (h2 : matchesAt s i cap') : cap = cap' := by
  rw [matchesAt_cap_eq h1, ← matchesAt_cap_eq h2]

/-- C6: with the user data present and decoding to `ud`,
`getECSClusterName` fails with the not-found error exactly when `ud`
contains no match of `\bECS_CLUSTER=([-\w]+)`, and on success it returns
the capture of the leftmost match (which is unique at that position). -/
theorem getECSClusterName_spec (w : World) (iid v : String) (ud : List Char)
    (hv : w.userDataValue = .ok (some v)) (hd : base64Decode v.data = some ud) :
    ((getECSClusterName w iid).1 = .error .ecsClusterNotFound ↔
      ∀ i cap, ¬ matchesAt ud i cap) ∧
    (∀ cn, (getECSClusterName w iid).1 = .ok cn →
      ∃ i, matchesAt ud i cn.data ∧
        ∀ j cap', matchesAt ud j cap' → i ≤ j ∧ (j = i → cap' = cn.data)) := by
  have hug : getUserData w iid = (.ok ud, [Call.describeInstanceAttribute iid]) := by
    unfold getUserData
    rw [hv]
    dsimp only
    rw [hd]
  unfold getECSClusterName
  rw [hug]
  dsimp only
  rcases hfind : ecsClusterFind ud with _ | cap
  · dsimp only
    refine ⟨⟨fun _ i cap hm => ?_, fun _ => rfl⟩, fun cn hcn => by cases hcn⟩
    exact findFrom_none ud [] hfind i cap (Nat.zero_le i) hm
  · dsimp only
    constructor
    · constructor
      · intro hcon
        cases hcon
      · intro hall
        obtain ⟨i, -, hmatch, -⟩ := findFrom_some ud [] cap hfind
        exact absurd hmatch (hall i cap)
    · intro cn hcn
      injection hcn with hcn
      subst hcn
      obtain ⟨i, -, hmatch, hmin⟩ := findFrom_some ud [] cap hfind
      refine ⟨i, hmatch, ?_⟩
      intro j cap' hm'
      refine ⟨hmin j cap' (Nat.zero_le j) hm', ?_⟩
      rintro rfl
      exact matchesAt_unique hm' hmatch

/-! ### concrete environments for the witnesses -/

def sampleDetail : CloudWatchEventDetail :=
  { AutoScalingGroupName := "asg", EC2InstanceId := "i-123", LifecycleActionToken := "tok",
    LifecycleHookName := "hook", LifecycleTransition := LifecycleTransitionTerminating,
    Wait := false }

def sampleEvent : CloudWatchEvent :=
  { Version := "0", ID := "1", DetailType := DetailTypeTerminateLifecycle,
    Source := "aws.autoscaling", AccountID := "123", Time := "t", Region := "r",
    Resources := [], Detail := sampleDetail }

/-- `sampleEvent` with the only admissible change: `Wait := true`. -/
def sampleEventOut : CloudWatchEvent :=
  { sampleEvent with Detail := { sampleDetail with Wait := true } }

def badEvent : CloudWatchEvent := { sampleEvent with DetailType := "other" }

def sampleCI : ContainerInstance :=
  { containerInstanceArn := "arn1", ec2InstanceId := "i-123", status := "ACTIVE" }

/-- A world where everything succeeds: the user data decodes to
`ECS_CLUSTER=abc`, one container instance page, one RUNNING task. -/
def sampleWorld : World where
  userDataValue := .ok (some "RUNTX0NMVVNURVI9YWJj")
  containerInstancePages := .ok [["arn1"]]
  describeContainerInstances := fun _ => .ok [sampleCI]
  updateState := .ok ()
  listTasksRunning := .ok ["task1"]
  listTasksStoppedPages := .ok []
  describeTasks := fun _ => .ok []
  heartbeatResult := .ok ()
  completeResult := .ok ()

def sampleCalls : List Call :=
  [Call.describeInstanceAttribute "i-123",
   Call.listContainerInstances "abc",
   Call.describeContainerInstances "abc" ["arn1"],
   Call.updateContainerInstancesState "abc" ["arn1"] "DRAINING",
   Call.listTasks "abc" "arn1" "RUNNING",
   Call.recordLifecycleActionHeartbeat "asg" "tok" "hook"]

def noUserDataWorld : World := { sampleWorld with userDataValue := .ok none }

def hbFailWorld : World := { sampleWorld with heartbeatResult := .error "hb" }

/-! ### witnesses -/

theorem handler_lifecycle_signal_witness :
    handler sampleWorld sampleEvent = ((some sampleEventOut, none), sampleCalls) ∧
    ((tasksRemain sampleWorld = true →
      sampleCalls.countP isHeartbeatCall = 1 ∧ sampleCalls.countP isCompleteCall = 0 ∧
      sampleEventOut.Detail.Wait = true) ∧
    (tasksRemain sampleWorld = false →
      sampleCalls.countP isCompleteCall = 1 ∧ sampleCalls.countP isHeartbeatCall = 0 ∧
      Call.completeLifecycleAction sampleEvent.Detail.AutoScalingGroupName "CONTINUE"
        sampleEvent.Detail.LifecycleActionToken sampleEvent.Detail.LifecycleHookName ∈
          sampleCalls ∧
      sampleEventOut.Detail.Wait = false)) :=
  ⟨by decide, handler_lifecycle_signal sampleWorld sampleEvent sampleEventOut sampleCalls
    (by decide)⟩

theorem taskExists_spec_witness :
    sampleWorld.listTasksRunning = .ok ["task1"] ∧
    sampleWorld.listTasksStoppedPages = .ok [] ∧
    (∀ arns ∈ ([] : List (List String)), arns ≠ [] →
      ∃ tasks, sampleWorld.describeTasks arns = .ok tasks) ∧
    ∃ b, (taskExists sampleWorld "abc" "arn1").1 = .ok b ∧
      (b = true ↔ ["task1"] ≠ [] ∨
        ∃ arns ∈ ([] : List (List String)), arns ≠ [] ∧
          ∃ tasks, sampleWorld.describeTasks arns = .ok tasks ∧
            ∃ t ∈ tasks, t.lastStatus = "RUNNING") :=
  ⟨rfl, rfl, fun arns h _ => absurd h (List.not_mem_nil arns),
    taskExists_spec sampleWorld "abc" "arn1" ["task1"] [] rfl rfl
      (fun arns h _ => absurd h (List.not_mem_nil arns))⟩

theorem handler_validation_witness :
    (badEvent.DetailType ≠ DetailTypeTerminateLifecycle ∨
      badEvent.Detail.LifecycleTransition ≠ LifecycleTransitionTerminating) ∧
    ((∃ e, handler sampleWorld badEvent = ((none, some e), []) ∧ isValidationError e = true) ∧
    DetailTypeTerminateLifecycle = "EC2 Instance-terminate Lifecycle Action" ∧
    LifecycleTransitionTerminating = "autoscaling:EC2_INSTANCE_TERMINATING") :=
  ⟨Or.inl (by decide), handler_validation sampleWorld badEvent (Or.inl (by decide))⟩

theorem handler_drain_idempotent_witness :
    sampleEvent.DetailType = DetailTypeTerminateLifecycle ∧
    sampleEvent.Detail.LifecycleTransition = LifecycleTransitionTerminating ∧
    getECSClusterName sampleWorld sampleEvent.Detail.EC2InstanceId =
      (.ok "abc", [Call.describeInstanceAttribute "i-123"]) ∧
    getContainerInstance sampleWorld "abc" sampleEvent.Detail.EC2InstanceId =
      (.ok sampleCI, [Call.listContainerInstances "abc",
        Call.describeContainerInstances "abc" ["arn1"]]) ∧
    (handler sampleWorld sampleEvent).2.countP isUpdateStateCall =
      if sampleCI.status = ContainerInstanceStatusDraining then 0 else 1 :=
  ⟨rfl, rfl, rfl, rfl,
    handler_drain_idempotent sampleWorld sampleEvent "abc" sampleCI
      [Call.describeInstanceAttribute "i-123"]
      [Call.listContainerInstances "abc", Call.describeContainerInstances "abc" ["arn1"]]
      rfl rfl rfl rfl⟩

theorem handler_frame_witness :
    handler sampleWorld sampleEvent = ((some sampleEventOut, none), sampleCalls) ∧
    (sampleEventOut = { sampleEvent with
        Detail := { sampleEvent.Detail with Wait := sampleEventOut.Detail.Wait } } ∧
    (sampleEventOut.Detail.Wait = true ∨ sampleEventOut.Detail.Wait = false)) :=
  ⟨by decide, handler_frame sampleWorld sampleEvent sampleEventOut sampleCalls (by decide)⟩

theorem getECSClusterName_spec_witness :
    sampleWorld.userDataValue = .ok (some "RUNTX0NMVVNURVI9YWJj") ∧
    base64Decode "RUNTX0NMVVNURVI9YWJj".data = some "ECS_CLUSTER=abc".data ∧
    (((getECSClusterName sampleWorld "i-123").1 = .error .ecsClusterNotFound ↔
      ∀ i cap, ¬ matchesAt "ECS_CLUSTER=abc".data i cap) ∧
    (∀ cn, (getECSClusterName sampleWorld "i-123").1 = .ok cn →
      ∃ i, matchesAt "ECS_CLUSTER=abc".data i cn.data ∧
        ∀ j cap', matchesAt "ECS_CLUSTER=abc".data j cap' →
          i ≤ j ∧ (j = i → cap' = cn.data))) :=
  ⟨rfl, by decide,
    getECSClusterName_spec sampleWorld "i-123" "RUNTX0NMVVNURVI9YWJj"
      "ECS_CLUSTER=abc".data rfl (by decide)⟩

theorem getContainerInstance_spec_witness :
    sampleWorld.containerInstancePages = .ok [["arn1"]] ∧
    (∀ arns ∈ [["arn1"]], arns ≠ [] →
      ∃ cis, sampleWorld.describeContainerInstances arns = .ok cis) ∧
    (((∃ arns ∈ [["arn1"]], arns ≠ [] ∧
        ∃ cis, sampleWorld.describeContainerInstances arns = .ok cis ∧
          ∃ x ∈ cis, x.ec2InstanceId = "i-123") →
      ∃ ci, (getContainerInstance sampleWorld "abc" "i-123").1 = .ok ci ∧
        ci.ec2InstanceId = "i-123") ∧
    ((getContainerInstance sampleWorld "abc" "i-123").1 =
        .error (.containerInstanceNotFound "abc" "i-123") ↔
      ¬ ∃ arns ∈ [["arn1"]], arns ≠ [] ∧
        ∃ cis, sampleWorld.describeContainerInstances arns = .ok cis ∧
          ∃ x ∈ cis, x.ec2InstanceId = "i-123")) :=
  ⟨rfl, fun _ _ _ => ⟨[sampleCI], rfl⟩,
    getContainerInstance_spec sampleWorld "abc" "i-123" [["arn1"]] rfl
      (fun _ _ _ => ⟨[sampleCI], rfl⟩)⟩

theorem handler_userdata_failure_witness :
    (noUserDataWorld.userDataValue = .ok none ∨
      ∃ v, noUserDataWorld.userDataValue = .ok (some v) ∧ base64Decode v.data = none) ∧
    ((∃ e, (handler noUserDataWorld sampleEvent).1 = (none, some e) ∧
      (isValidationError e = true ∨
        e = .userDataMissing sampleEvent.Detail.EC2InstanceId ∨
        e = .base64DecodeError)) ∧
    ∀ c ∈ (handler noUserDataWorld sampleEvent).2, isECSCall c = false) :=
  ⟨Or.inl rfl, handler_userdata_failure noUserDataWorld sampleEvent (Or.inl rfl)⟩

theorem taskExists_short_circuit_witness :
    sampleWorld.listTasksRunning = .ok ["task1"] ∧ (["task1"] : List String) ≠ [] ∧
    taskExists sampleWorld "abc" "arn1" = (.ok true, [Call.listTasks "abc" "arn1" "RUNNING"]) :=
  ⟨rfl, by decide,
    taskExists_short_circuit sampleWorld "abc" "arn1" ["task1"] rfl (by decide)⟩

theorem handler_error_no_event_witness :
    hbFailWorld.heartbeatResult = .error "hb" ∧
    (∃ c ∈ (handler hbFailWorld sampleEvent).2, isHeartbeatCall c = true) ∧
    (handler hbFailWorld sampleEvent).1 = (none, some (.awsError "hb")) :=
  ⟨rfl, ⟨Call.recordLifecycleActionHeartbeat "asg" "tok" "hook", by decide, rfl⟩,
    (handler_error_no_event hbFailWorld sampleEvent).2.1 "hb" rfl
      ⟨Call.recordLifecycleActionHeartbeat "asg" "tok" "hook", by decide, rfl⟩⟩
